import Mathlib

/-!
Verification of the arti repository subset: flow-control windows
(`tor-proto/src/circuit/sendme.rs`), the channel map
(`crates/tor-chanmgr/src/mgr/map.rs`), the microdescriptor ed25519-id
extraction (`tor-netdoc/src/microdesc.rs`) and the HTTP connector URI
resolution (`crates/arti-hyper/src/lib.rs`).

The Rust code is shallowly embedded: `u16` values are natural numbers with
checked arithmetic mirrored explicitly (`checked_sub`, `checked_add` against
65535), `VecDeque` front/back operations become list head/append, fallible
code returns `Option`/`Except`, and the async park/resume of
`SendWindow::take` becomes an explicit state machine whose `resume`
transition replays the loop body, exactly as the Rust `loop` does.
-/

namespace Arti

/-! ## Flow-control windows (tor-proto/src/circuit/sendme.rs) -/

/-- `WindowParams`: largest allowable value and increment of a window
(trait `WindowParams` with `get_maximum`/`get_increment`). -/
structure WindowParams where
  max : Nat
  inc : Nat
deriving DecidableEq

/-- `CircParams`: maximum 1000, increment 100. -/
def circParams : WindowParams := ⟨1000, 100⟩

/-- `StreamParams`: maximum 500, increment 50. -/
def streamParams : WindowParams := ⟨500, 50⟩

/-- Largest value of a `u16`; `checked_add` fails beyond it. -/
def u16Max : Nat := 65535

/-- State of `SendWindowInner<T>`: the current window value (`u16`), the
FIFO of expected tags (`VecDeque<T>`, head = front), and the oneshot
bookkeeping: `parked` records a `take` caller waiting for credit together
with the tag it passed, and `fired` records whether the stored `unblock`
sender has already been consumed by `put` (so the sender is present
exactly when `parked.isSome ∧ fired = false`). -/
structure SendWindowInner (T : Type) where
  window : Nat
  tags : List T
  parked : Option T
  fired : Bool
deriving DecidableEq

/-- A fresh send window (`SendWindow::new`): given initial value, empty tag
queue, no parked waiter. -/
def swInit {T : Type} (w : Nat) : SendWindowInner T :=
  { window := w, tags := [], parked := none, fired := false }

/-- One execution of the body of the `loop` in `SendWindow::take`, under the
lock: push a clone of the tag when `oldval % increment == 0` and
`oldval != maximum`; then `checked_sub(1)`: on success store and return the
new value, otherwise (window is zero) install the oneshot sender and park.
Returns the successor state and `some` returned value, or `none` when the
caller parks. -/
def takeBody {T : Type} (P : WindowParams) (t : T) (s : SendWindowInner T) :
    SendWindowInner T × Option Nat :=
  let tags' := if s.window % P.inc = 0 ∧ s.window ≠ P.max then s.tags ++ [t] else s.tags
  match s.window with
  | 0 => ({ s with tags := tags', parked := some t, fired := false }, none)
  | Nat.succ w => ({ s with tags := tags', window := w }, some w)

/-- The success path of `SendWindow::put` after the tag check: `checked_add`
of the increment (failure = `u16` overflow returns `None` with the popped
queue), then take and fire the `unblock` sender if one is present. -/
def putAdd {T : Type} (P : WindowParams) (rest : List T) (s : SendWindowInner T) :
    SendWindowInner T × Option Nat :=
  if s.window + P.inc ≤ u16Max then
    let v := s.window + P.inc
    let fired' := if s.parked.isSome ∧ s.fired = false then true else s.fired
    ({ s with tags := rest, window := v, fired := fired' }, some v)
  else
    ({ s with tags := rest }, none)

/-- `SendWindow::put(tag)`: pop the front expected tag, match it against the
incoming tag (`(Some t, Some tag)` must be equal; `(Some _, None)` is the
legacy accept; anything else returns `None`), then add the increment. -/
def putStep {T : Type} [DecidableEq T] (P : WindowParams) (tag : Option T)
    (s : SendWindowInner T) : SendWindowInner T × Option Nat :=
  match s.tags, tag with
  | t :: rest, some u => if t = u then putAdd P rest s else ({ s with tags := rest }, none)
  | _ :: rest, none => putAdd P rest s
  | [], _ => (s, none)

/-- Operations that can be applied to a send window: a fresh `take` call, a
`put`, or the resumption of a parked `take` after its oneshot fired. -/
inductive SWOp (T : Type) where
  | take (t : T)
  | put (tag : Option T)
  | resume
deriving DecidableEq

/-- One step of the send-window state machine.  A fresh `take` requires no
existing waiter (the `assert!(old.is_none())` in the source); a `resume`
requires a parked waiter whose oneshot has fired, and replays the loop body
of `take` with the original tag.  Inapplicable operations leave the state
unchanged and return nothing. -/
def swStep {T : Type} [DecidableEq T] (P : WindowParams) (s : SendWindowInner T) :
    SWOp T → SendWindowInner T × Option Nat
  | .take t => if s.parked = none then takeBody P t s else (s, none)
  | .put tag => putStep P tag s
  | .resume =>
    match s.parked, s.fired with
    | some t, true => takeBody P t { s with parked := none, fired := false }
    | _, _ => (s, none)

/-- Run a sequence of send-window operations. -/
def swRun {T : Type} [DecidableEq T] (P : WindowParams) (ops : List (SWOp T))
    (s : SendWindowInner T) : SendWindowInner T :=
  ops.foldl (fun st op => (swStep P st op).1) s

end Arti

namespace Arti

/-! ### C1: characterization of `SendWindow::take` -/

/-- The tag queue after one round of `take`: pushed exactly at increment
boundaries below the maximum. -/
theorem takeBody_tags {T : Type} (P : WindowParams) (t : T) (s : SendWindowInner T) :
    (takeBody P t s).1.tags =
      if s.window % P.inc = 0 ∧ s.window ≠ P.max then s.tags ++ [t] else s.tags := by
  unfold takeBody
  cases s.window <;> simp

/-- **C1.** One round of `SendWindow::take(tag)` with current window value
`old`: when `old % INCREMENT = 0` and `old ≠ MAX` a clone of the tag is
pushed onto the back of the tag FIFO (and only then); when `old > 0` the
window is decremented and `old - 1` is returned; when `old = 0` the caller
parks.  Once credit arrives (the oneshot has fired), resuming replays the
same algorithm from step 1 with the same tag. -/
theorem c1_take_characterization {T : Type} [DecidableEq T] (P : WindowParams)
    (s : SendWindowInner T) (t : T) (hpark : s.parked = none) :
    ((s.window % P.inc = 0 ∧ s.window ≠ P.max) →
        (takeBody P t s).1.tags = s.tags ++ [t]) ∧
    (¬(s.window % P.inc = 0 ∧ s.window ≠ P.max) →
        (takeBody P t s).1.tags = s.tags) ∧
    (0 < s.window →
        (takeBody P t s).2 = some (s.window - 1) ∧
        (takeBody P t s).1.window = s.window - 1 ∧
        (takeBody P t s).1.parked = none) ∧
    (s.window = 0 →
        (takeBody P t s).2 = none ∧
        (takeBody P t s).1.parked = some t ∧
        (takeBody P t s).1.window = 0) ∧
    (∀ s' : SendWindowInner T, s'.parked = some t → s'.fired = true →
        swStep P s' .resume = takeBody P t { s' with parked := none, fired := false }) := by
  refine ⟨?_, ?_, ?_, ?_, ?_⟩
  · intro hcond
    rw [takeBody_tags, if_pos hcond]
  · intro hcond
    rw [takeBody_tags, if_neg hcond]
  · intro hpos
    cases hw : s.window with
    | zero => omega
    | succ w => simp [takeBody, hw, hpark]
  · intro hzero
    simp [takeBody, hzero]
  · intro s' hp hf
    simp [swStep, hp, hf]

/-- Witness for C1 at a concrete state: window 100 on circuit parameters
(boundary, not the maximum), so the tag is pushed and 99 is returned. -/
theorem c1_take_witness :
    (takeBody circParams (7 : Nat) (swInit 100)).1.tags = [7] ∧
    (takeBody circParams (7 : Nat) (swInit 100)).2 = some 99 ∧
    (takeBody circParams (7 : Nat) (swInit 100)).1.window = 99 := by
  have h := c1_take_characterization (T := Nat) circParams (swInit 100) 7 (by decide)
  refine ⟨?_, ?_, ?_⟩
  · have := h.1 (by decide)
    simpa [swInit] using this
  · exact (h.2.2.1 (by decide)).1
  · exact (h.2.2.1 (by decide)).2.1

/-! ### C2: characterization of `SendWindow::put` -/

/-- **C2.** `SendWindow::put(tag)`: the front expected tag is popped; the
result is `none` when there was no expected tag, or when both an expected
and an incoming tag are present and differ, or when adding the increment
overflows the `u16` window; otherwise (equal tags, or an expected tag with
the incoming tag omitted) the window grows by the increment, the new value
is returned, and a parked waiter's oneshot is fired if one is present. -/
theorem c2_put_characterization {T : Type} [DecidableEq T] (P : WindowParams)
    (s : SendWindowInner T) (tag : Option T) :
    (s.tags = [] → putStep P tag s = (s, none)) ∧
    (∀ t rest u, s.tags = t :: rest → tag = some u → t ≠ u →
        putStep P tag s = ({ s with tags := rest }, none)) ∧
    (∀ t rest, s.tags = t :: rest → (tag = some t ∨ tag = none) →
        (s.window + P.inc ≤ u16Max →
          (putStep P tag s).2 = some (s.window + P.inc) ∧
          (putStep P tag s).1.window = s.window + P.inc ∧
          (putStep P tag s).1.tags = rest ∧
          ((s.parked.isSome ∧ s.fired = false) → (putStep P tag s).1.fired = true)) ∧
        (u16Max < s.window + P.inc →
          (putStep P tag s).2 = none ∧
          (putStep P tag s).1.window = s.window ∧
          (putStep P tag s).1.tags = rest)) := by
  refine ⟨?_, ?_, ?_⟩
  · intro hnil
    cases tag <;> simp [putStep, hnil]
  · intro t rest u htags htag hne
    subst htag
    simp [putStep, htags, hne]
  · intro t rest htags hmatch
    have hput : putStep P tag s = putAdd P rest s := by
      rcases hmatch with h | h <;> subst h <;> simp [putStep, htags]
    constructor
    · intro hle
      rw [hput]
      refine ⟨?_, ?_, ?_, ?_⟩ <;> simp [putAdd, hle]
      intro hp hf
      simp [hp, hf]
    · intro hlt
      rw [hput]
      have : ¬ (s.window + P.inc ≤ u16Max) := by omega
      simp [putAdd, this]

/-- A concrete send-window state used by the C2 witness: window 10,
expected tags 3 then 4. -/
def c2State : SendWindowInner Nat :=
  { window := 10, tags := [3, 4], parked := none, fired := false }

/-- Witness for C2: on a window at 10 (stream parameters) with expected front
tag 3, a matching put returns 60 and pops the queue; a mismatching put
returns `none` but still pops the queue. -/
theorem c2_put_witness :
    (putStep streamParams (some 3) c2State).2 = some 60 ∧
    (putStep streamParams (some 9) c2State) =
      ({ window := 10, tags := [4], parked := none, fired := false }, none) := by
  have h := c2_put_characterization (T := Nat) streamParams c2State (some 3)
  have h' := c2_put_characterization (T := Nat) streamParams c2State (some 9)
  constructor
  · exact ((h.2.2 3 [4] rfl (Or.inl rfl)).1 (by decide)).1
  · exact h'.2.1 3 [4] 9 rfl rfl (by decide)

end Arti

namespace Arti

/-! ### C3: window bounds over take/put sequences -/

/-- Guard of the front-tag discipline: a `put` must supply exactly the tag
currently at the front of the expected-tag FIFO; other operations are
unconstrained. -/
def putGuard {T : Type} [DecidableEq T] (s : SendWindowInner T) : SWOp T → Bool
  | SWOp.put (some u) =>
    match s.tags with
    | t :: _ => decide (t = u)
    | [] => false
  | SWOp.put none => false
  | _ => true

/-- Stepwise check that every `put` in a sequence of operations supplies the
tag that is currently at the front of the expected-tag FIFO (the hypothesis
of claim C3). -/
def putsSupplyFront {T : Type} [DecidableEq T] (P : WindowParams) :
    SendWindowInner T → List (SWOp T) → Bool
  | _, [] => true
  | s, op :: rest => putGuard s op && putsSupplyFront P (swStep P s op).1 rest

/-- First five chunks of the C3 counterexample trace: 100 `take`s each. -/
def c3opsA : List (SWOp Nat) := List.replicate 100 (SWOp.take 0)

/-- Final chunk of the C3 counterexample trace: the 501st `take` (which
parks, pushing a tenth tag), a `put` that refills and fires the waiter, the
resumption of the parked `take` (which re-pushes its tag at the boundary
50), and ten further `put`s, each supplying the front tag. -/
def c3opsB : List (SWOp Nat) :=
  [SWOp.take 0, SWOp.put (some 0), SWOp.resume] ++ List.replicate 10 (SWOp.put (some 0))

/-- The operation sequence refuting C3 as stated, on stream parameters
(maximum 500, increment 50): 501 takes drive the window from 500 to 0 and
park the caller (pushing ten tags, at the boundaries 450, 400, …, 50, 0);
one put refills to 50 and fires the waiter; the resumed take pushes an
eleventh tag at the boundary 50; ten further puts, each supplying the front
tag, then raise the window to 49 + 10·50 = 549 > 500. -/
def c3CexOps : List (SWOp Nat) :=
  c3opsA ++ (c3opsA ++ (c3opsA ++ (c3opsA ++ (c3opsA ++ c3opsB))))

/-- Intermediate states of the C3 counterexample trace, after 100, 200,
300, 400 and 500 operations. -/
def c3s1 : SendWindowInner Nat := { window := 400, tags := [0], parked := none, fired := false }

/-- State after 200 operations of the C3 counterexample trace. -/
def c3s2 : SendWindowInner Nat :=
  { window := 300, tags := List.replicate 3 0, parked := none, fired := false }

/-- State after 300 operations of the C3 counterexample trace. -/
def c3s3 : SendWindowInner Nat :=
  { window := 200, tags := List.replicate 5 0, parked := none, fired := false }

/-- State after 400 operations of the C3 counterexample trace. -/
def c3s4 : SendWindowInner Nat :=
  { window := 100, tags := List.replicate 7 0, parked := none, fired := false }

/-- State after 500 operations of the C3 counterexample trace. -/
def c3s5 : SendWindowInner Nat :=
  { window := 0, tags := List.replicate 9 0, parked := none, fired := false }

/-- Running a concatenation of operation lists runs them in sequence. -/
theorem swRun_append {T : Type} [DecidableEq T] (P : WindowParams)
    (a b : List (SWOp T)) (s : SendWindowInner T) :
    swRun P (a ++ b) s = swRun P b (swRun P a s) := by
  simp [swRun, List.foldl_append]

/-- The front-tag discipline for a concatenated trace splits at the join. -/
theorem putsSupplyFront_append {T : Type} [DecidableEq T] (P : WindowParams)
    (a b : List (SWOp T)) (s : SendWindowInner T) :
    putsSupplyFront P s (a ++ b) =
      (putsSupplyFront P s a && putsSupplyFront P (swRun P a s) b) := by
  induction a generalizing s with
  | nil => simp [putsSupplyFront, swRun]
  | cons op rest ih =>
    have hl : (op :: rest) ++ b = op :: (rest ++ b) := rfl
    rw [hl]
    show (putGuard s op && putsSupplyFront P (swStep P s op).1 (rest ++ b)) = _
    rw [ih]
    have hr : swRun P (op :: rest) s = swRun P rest (swStep P s op).1 := rfl
    rw [hr]
    show _ = ((putGuard s op && putsSupplyFront P (swStep P s op).1 rest) && _)
    rw [Bool.and_assoc]

set_option maxRecDepth 40000 in
/-- Chunk evaluation: the first 100 takes. -/
theorem c3chunk1 : swRun streamParams c3opsA (swInit 500) = c3s1 ∧
    putsSupplyFront streamParams (swInit 500) c3opsA = true := by decide

set_option maxRecDepth 40000 in
/-- Chunk evaluation: takes 101–200. -/
theorem c3chunk2 : swRun streamParams c3opsA c3s1 = c3s2 ∧
    putsSupplyFront streamParams c3s1 c3opsA = true := by decide

set_option maxRecDepth 40000 in
/-- Chunk evaluation: takes 201–300. -/
theorem c3chunk3 : swRun streamParams c3opsA c3s2 = c3s3 ∧
    putsSupplyFront streamParams c3s2 c3opsA = true := by decide

set_option maxRecDepth 40000 in
/-- Chunk evaluation: takes 301–400. -/
theorem c3chunk4 : swRun streamParams c3opsA c3s3 = c3s4 ∧
    putsSupplyFront streamParams c3s3 c3opsA = true := by decide

set_option maxRecDepth 40000 in
/-- Chunk evaluation: takes 401–500. -/
theorem c3chunk5 : swRun streamParams c3opsA c3s4 = c3s5 ∧
    putsSupplyFront streamParams c3s4 c3opsA = true := by decide

set_option maxRecDepth 40000 in
/-- Chunk evaluation: the parking take, the refilling put, the resumption
and the ten final puts, ending at window 549. -/
theorem c3chunk6 : (swRun streamParams c3opsB c3s5).window = 549 ∧
    putsSupplyFront streamParams c3s5 c3opsB = true := by decide

/-- **C3 counterexample.** Starting from a send window created at the
maximum 500 (stream parameters), a sequence of takes and puts in which every
put supplies the front expected tag drives the window to 549 > 500: the
claimed bound `window ≤ MAX` fails once a blocked `take` has re-pushed its
tag on resumption. -/
theorem c3_window_exceeds_max_cex :
    putsSupplyFront streamParams (swInit 500) c3CexOps = true ∧
    (swInit 500 : SendWindowInner Nat).window ≤ streamParams.max ∧
    (swRun streamParams c3CexOps (swInit 500)).window = 549 ∧
    streamParams.max < 549 := by
  have hrun : swRun streamParams c3CexOps (swInit 500) = swRun streamParams c3opsB c3s5 := by
    simp only [c3CexOps, swRun_append, c3chunk1.1, c3chunk2.1, c3chunk3.1, c3chunk4.1,
      c3chunk5.1]
  have hpf : putsSupplyFront streamParams (swInit 500) c3CexOps = true := by
    simp only [c3CexOps, putsSupplyFront_append, swRun_append, c3chunk1.1, c3chunk2.1,
      c3chunk3.1, c3chunk4.1, c3chunk5.1, c3chunk1.2, c3chunk2.2, c3chunk3.2, c3chunk4.2,
      c3chunk5.2, c3chunk6.2, Bool.and_self]
  refine ⟨hpf, by decide, ?_, by decide⟩
  rw [hrun]
  exact c3chunk6.1

end Arti

namespace Arti

/-- Guard of the amended C3 admissibility: a `take` requires a positive
window and no parked waiter, a `put` must supply the front tag, and `resume`
never occurs (nothing ever blocks). -/
def noBlockGuard {T : Type} [DecidableEq T] (s : SendWindowInner T) : SWOp T → Bool
  | SWOp.take _ => decide (0 < s.window) && decide (s.parked = none)
  | SWOp.put tag => putGuard s (SWOp.put tag)
  | SWOp.resume => false

/-- Admissibility for the amended C3: stepwise, every `take` happens with a
positive window and no parked waiter (so no `take` ever blocks), and every
`put` supplies the tag currently at the front of the FIFO (so `resume`
never occurs). -/
def noBlockAdmissible {T : Type} [DecidableEq T] (P : WindowParams) :
    SendWindowInner T → List (SWOp T) → Bool
  | _, [] => true
  | s, op :: rest => noBlockGuard s op && noBlockAdmissible P (swStep P s op).1 rest

/-- Inductive invariant for the amended C3: no parked waiter, the potential
`window + increment · |tags|` stays at most the maximum, and strictly below
it whenever the tag queue is nonempty. -/
def swInv {T : Type} (P : WindowParams) (s : SendWindowInner T) : Prop :=
  s.parked = none ∧
  s.window + P.inc * s.tags.length ≤ P.max ∧
  (0 < s.tags.length → s.window + P.inc * s.tags.length < P.max)

/-- Two multiples of `d` strictly apart are at least `d` apart. -/
theorem add_dvd_le {d a b : Nat} (ha : d ∣ a) (hb : d ∣ b) (h : a < b) :
    a + d ≤ b := by
  have hd : d ∣ b - a := Nat.dvd_sub' hb ha
  have hpos : 0 < b - a := by omega
  have := Nat.le_of_dvd hpos hd
  omega

/-- Preservation of the C3 invariant by any admissible step. -/
theorem swInv_step {T : Type} [DecidableEq T] (P : WindowParams)
    (hinc : 0 < P.inc) (hdvd : P.inc ∣ P.max)
    (s : SendWindowInner T) (op : SWOp T) (hinv : swInv P s)
    (hguard : noBlockGuard s op = true) :
    swInv P (swStep P s op).1 := by
  obtain ⟨hpark, hle, hstrict⟩ := hinv
  cases op with
  | take t =>
    simp only [noBlockGuard, decide_eq_true_eq, Bool.and_eq_true] at hguard
    obtain ⟨hpos, -⟩ := hguard
    have hstep : (swStep P s (SWOp.take t)).1 = (takeBody P t s).1 := by
      rw [swStep, if_pos hpark]
    rw [hstep]
    cases hw : s.window with
    | zero => omega
    | succ w =>
      have hwin : (takeBody P t s).1.window = w := by simp [takeBody, hw]
      have hpk : (takeBody P t s).1.parked = s.parked := by simp [takeBody, hw]
      by_cases hcond : s.window % P.inc = 0 ∧ s.window ≠ P.max
      · -- boundary take: a tag is pushed
        have htags : (takeBody P t s).1.tags = s.tags ++ [t] := by
          rw [takeBody_tags, if_pos hcond]
        have hdw : P.inc ∣ s.window := Nat.dvd_of_mod_eq_zero hcond.1
        have hdval : P.inc ∣ s.window + P.inc * s.tags.length :=
          dvd_add hdw (dvd_mul_right _ _)
        have hvlt : s.window + P.inc * s.tags.length < P.max := by
          rcases Nat.eq_zero_or_pos s.tags.length with h0 | hp'
          · have hz : P.inc * s.tags.length = 0 := by rw [h0, Nat.mul_zero]
            have hne := hcond.2
            omega
          · exact hstrict hp'
        have hroom : s.window + P.inc * s.tags.length + P.inc ≤ P.max :=
          add_dvd_le hdval hdvd hvlt
        have hmul : P.inc * (s.tags.length + 1) = P.inc * s.tags.length + P.inc :=
          Nat.mul_succ _ _
        have hlt : (takeBody P t s).1.tags.length = s.tags.length + 1 := by
          rw [htags]
          simp
        refine ⟨by rw [hpk]; exact hpark, ?_, ?_⟩
        · rw [hwin, hlt, hmul]
          omega
        · intro _
          rw [hwin, hlt, hmul]
          omega
      · -- ordinary take: no tag is pushed
        have htags : (takeBody P t s).1.tags = s.tags := by
          rw [takeBody_tags, if_neg hcond]
        refine ⟨by rw [hpk]; exact hpark, ?_, ?_⟩
        · rw [htags, hwin]
          omega
        · intro hl
          rw [htags] at hl
          have := hstrict hl
          rw [htags, hwin]
          omega
  | put tag =>
    simp only [noBlockGuard] at hguard
    cases tag with
    | none => simp [putGuard] at hguard
    | some u =>
      cases htags : s.tags with
      | nil => simp [putGuard, htags] at hguard
      | cons t rest =>
        have htu : t = u := by
          have := hguard
          simp [putGuard, htags] at this
          exact this
        have hlen : s.tags.length = rest.length + 1 := by rw [htags]; rfl
        have hval : P.inc * s.tags.length = P.inc * rest.length + P.inc := by
          rw [hlen, Nat.mul_succ]
        have hstrict' : s.window + (P.inc * rest.length + P.inc) < P.max := by
          have := hstrict (by omega)
          omega
        have hstep : (swStep P s (SWOp.put (some u))).1 = (putAdd P rest s).1 := by
          simp [swStep, putStep, htags, htu]
        rw [hstep]
        by_cases hof : s.window + P.inc ≤ u16Max
        · have hw' : (putAdd P rest s).1.window = s.window + P.inc := by
            simp [putAdd, hof]
          have ht' : (putAdd P rest s).1.tags = rest := by simp [putAdd, hof]
          have hp' : (putAdd P rest s).1.parked = s.parked := by simp [putAdd, hof]
          refine ⟨by rw [hp']; exact hpark, ?_, ?_⟩
          · rw [hw', ht']
            omega
          · intro _
            rw [hw', ht']
            omega
        · have hw' : (putAdd P rest s).1.window = s.window := by simp [putAdd, hof]
          have ht' : (putAdd P rest s).1.tags = rest := by simp [putAdd, hof]
          have hp' : (putAdd P rest s).1.parked = s.parked := by simp [putAdd, hof]
          refine ⟨by rw [hp']; exact hpark, ?_, ?_⟩
          · rw [hw', ht']
            omega
          · intro _
            rw [hw', ht']
            omega
  | resume => simp [noBlockGuard] at hguard

/-- The C3 invariant is preserved along any admissible run. -/
theorem swInv_run {T : Type} [DecidableEq T] (P : WindowParams)
    (hinc : 0 < P.inc) (hdvd : P.inc ∣ P.max)
    (ops : List (SWOp T)) (s : SendWindowInner T) (hinv : swInv P s)
    (hadm : noBlockAdmissible P s ops = true) :
    swInv P (swRun P ops s) := by
  induction ops generalizing s with
  | nil => exact hinv
  | cons op rest ih =>
    have hsplit : noBlockAdmissible P s (op :: rest) =
        (noBlockGuard s op && noBlockAdmissible P (swStep P s op).1 rest) := rfl
    rw [hsplit, Bool.and_eq_true] at hadm
    have hs' := swInv_step P hinc hdvd s op hinv hadm.1
    have hrun : swRun P (op :: rest) s = swRun P rest (swStep P s op).1 := rfl
    rw [hrun]
    exact ih _ hs' hadm.2

/-- **C3 (amended).** For every sequence of take and put operations on a send
window created with an initial value at most the maximum — where no `take` is
ever invoked on a zero window (no call blocks) and every `put` supplies the
tag currently at the front of the expected-tag FIFO — the window value stays
in `[0, MAX]` and the tag FIFO length stays at most `MAX / INCREMENT`.  (The
unamended claim, which also admits blocking takes, is refuted by
`c3_window_exceeds_max_cex`: a resumed `take` pushes its tag a second time.) -/
theorem c3_no_blocking_invariant {T : Type} [DecidableEq T] (P : WindowParams)
    (hinc : 0 < P.inc) (hdvd : P.inc ∣ P.max) (w0 : Nat) (hw0 : w0 ≤ P.max)
    (ops : List (SWOp T)) (hadm : noBlockAdmissible P (swInit w0) ops = true) :
    (swRun P ops (swInit w0)).window ≤ P.max ∧
    (swRun P ops (swInit w0)).tags.length ≤ P.max / P.inc := by
  have hinv0 : swInv P (swInit w0 : SendWindowInner T) := by
    refine ⟨rfl, ?_, ?_⟩
    · simpa [swInit] using hw0
    · intro h
      simp [swInit] at h
  have h := swInv_run P hinc hdvd ops (swInit w0) hinv0 hadm
  obtain ⟨-, hle, -⟩ := h
  constructor
  · omega
  · rw [Nat.le_div_iff_mul_le hinc]
    have hcomm := Nat.mul_comm P.inc (swRun P ops (swInit w0)).tags.length
    omega

/-- Operations for the C3 witness: 51 takes from 500 (one tag pushed at the
boundary 450) followed by a put supplying that front tag. -/
def c3WitnessOps : List (SWOp Nat) :=
  List.replicate 51 (SWOp.take 0) ++ [SWOp.put (some 0)]

set_option maxRecDepth 40000 in
/-- Witness for the amended C3 on stream parameters with a concrete
admissible trace. -/
theorem c3_no_blocking_witness :
    (swRun streamParams c3WitnessOps (swInit 500)).window ≤ streamParams.max ∧
    (swRun streamParams c3WitnessOps (swInit 500)).tags.length ≤
      streamParams.max / streamParams.inc :=
  c3_no_blocking_invariant streamParams (by decide) (by decide) 500 (by decide)
    c3WitnessOps (by decide)

end Arti

namespace Arti

/-! ## Channel map (crates/tor-chanmgr/src/mgr/map.rs) -/

/-- Padding parameters (`tor_proto::channel::padding::Parameters`): two
bounded millisecond values.  Modelled from the spec: the type itself lives
outside the excerpt; the spec describes it as "two bounded millisecond
values `low ≤ high`, with sentinel `all_zeroes` (padding disabled) and named
defaults for Normal/Reduced levels". -/
structure PaddingParameters where
  lowMs : Nat
  highMs : Nat
deriving DecidableEq

/-- `PaddingParameters::all_zeroes`: the padding-disabled sentinel. -/
def PaddingParameters.allZeroes : PaddingParameters := ⟨0, 0⟩

/-- Modelled from the spec: `PaddingParameters::default`, the named default
for the Normal level.  The spec gives no numeric values; the concrete
milliseconds here are representative — the development only relies on the
two named defaults being distinct, which the spec implies by naming them
separately per level. -/
def PaddingParameters.defaultNormal : PaddingParameters := ⟨1500, 9500⟩

/-- Modelled from the spec: `PaddingParameters::default_reduced`, the named
default for the Reduced level (distinct from the Normal default). -/
def PaddingParameters.defaultReduced : PaddingParameters := ⟨9000, 14000⟩

/-- Modelled from the spec: `PaddingParametersBuilder` — a builder with
optional `low_ms`/`high_ms` fields; `build()` fills any unset field with the
builder's field default.  The builder is level-independent (it is
constructed by `PaddingParametersBuilder::default()` before the level is
consulted); its field defaults are those of the Normal-level default. -/
structure PaddingParametersBuilder where
  lowMs : Option Nat := none
  highMs : Option Nat := none
deriving DecidableEq

/-- `build()` on the modelled builder. -/
def PaddingParametersBuilder.build (b : PaddingParametersBuilder) : PaddingParameters :=
  ⟨b.lowMs.getD PaddingParameters.defaultNormal.lowMs,
   b.highMs.getD PaddingParameters.defaultNormal.highMs⟩

/-- `PaddingLevel` from the configuration. -/
inductive PaddingLevel where
  | none
  | reduced
  | normal
deriving DecidableEq

/-- `NetDirExtract`: the `nf_ito` consensus parameters,
`nf_ito[0 = normal | 1 = reduced][0 = low | 1 = high]`, in milliseconds. -/
structure NetDirExtract where
  nfItoNormal : Nat × Nat
  nfItoReduced : Nat × Nat
deriving DecidableEq

/-- `netdir.nf_ito[usize::from(reduced)]`. -/
def NetDirExtract.nfIto (nd : NetDirExtract) (reduced : Bool) : Nat × Nat :=
  if reduced then nd.nfItoReduced else nd.nfItoNormal

/-- `padding_parameters(config, netdir)` (map.rs lines 409–455): `None`
level returns `all_zeroes`; with a consensus, the level's `nf_ito` pair is
read (the `try_into` conversions cannot fail on the modelled non-negative
values), the `low > high` check aborts the filling closure leaving the
builder untouched, and the builder is built; without a consensus the named
default for the level is returned.  `build()` cannot fail here, so the
`Except` carries no error in the model (the Rust signature is fallible only
through `into_internal!` on a build failure). -/
def padding_parameters (config : PaddingLevel) (netdir : Except Unit NetDirExtract) :
    Except Unit PaddingParameters :=
  match config with
  | PaddingLevel.none => Except.ok PaddingParameters.allZeroes
  | PaddingLevel.reduced => Except.ok (paddingParametersFor true netdir)
  | PaddingLevel.normal => Except.ok (paddingParametersFor false netdir)
where
  paddingParametersFor (reduced : Bool) (netdir : Except Unit NetDirExtract) :
      PaddingParameters :=
    match netdir with
    | Except.ok nd =>
      let nfIto := nd.nfIto reduced
      let low := nfIto.1
      let high := nfIto.2
      let b : PaddingParametersBuilder :=
        if low ≤ high then { lowMs := some low, highMs := some high } else {}
      b.build
    | Except.error _ =>
      if reduced then PaddingParameters.defaultReduced else PaddingParameters.defaultNormal

/-- The abstract live transport (`AbstractChannel`), instantiated with the
observable behaviours this excerpt relies on: its identity, whether
`duration_unused` reports a known idle time (in seconds), the parameter
updates it has received through `reparameterize`, and whether
`reparameterize` succeeds (a closing channel's failure is ignored by the
fan-out). -/
structure Channel where
  ident : Nat
  durationUnused : Option Nat
  updates : List PaddingParameters
  reparamOk : Bool
deriving DecidableEq

/-- An open-channel entry (`OpenEntry`): the transport plus its maximum
unused duration. -/
structure OpenEntry where
  channel : Channel
  maxUnusedDuration : Nat
deriving DecidableEq

/-- `ChannelState`: an open channel, a channel being built (`Pending` is
irrelevant to these claims), or the transient `Poisoned` placeholder. -/
inductive ChannelState where
  | openC (ent : OpenEntry)
  | building
  | poisoned
deriving DecidableEq

/-- `Duration::checked_sub`. -/
def checkedSub (a b : Nat) : Option Nat :=
  if b ≤ a then some (a - b) else none

/-- `ChannelState::ready_to_expire` (map.rs lines 168–187): an `Open` entry
with a known `duration_unused` expires when
`max_unused_duration.checked_sub(duration_unused)` fails; otherwise the
remaining time is folded into the running minimum `expire_after`.
Returns (expire?, updated minimum). -/
def ready_to_expire (st : ChannelState) (expireAfter : Nat) : Bool × Nat :=
  match st with
  | ChannelState.openC ent =>
    match ent.channel.durationUnused with
    | some unused =>
      match checkedSub ent.maxUnusedDuration unused with
      | some remaining => (false, min expireAfter remaining)
      | none => (true, expireAfter)
    | none => (false, expireAfter)
  | _ => (false, expireAfter)

/-- The retained entries and final minimum of the expiry sweep: the
`HashMap::retain` loop threading `ret` through `ready_to_expire`. -/
def expireGo (m : List (Nat × ChannelState)) (ret : Nat) :
    List (Nat × ChannelState) × Nat :=
  match m with
  | [] => ([], ret)
  | e :: rest =>
    let r := ready_to_expire e.2 ret
    let tail := expireGo rest r.2
    cond r.1 tail (e :: tail.1, tail.2)

/-- `ChannelMap::expire_channels` (map.rs lines 394–402): start the return
value at 180 seconds and retain exactly the entries that are not ready to
expire. -/
def expire_channels (m : List (Nat × ChannelState)) : List (Nat × ChannelState) × Nat :=
  expireGo m 180

end Arti

namespace Arti

/-! ### C4: expiry sweep -/

/-- Spec-side removal predicate (amended claim): an entry is removed exactly
when it is Open, its transport reports a known unused duration, and that
duration strictly exceeds the entry's maximum unused duration. -/
def specExpires (st : ChannelState) : Bool :=
  match st with
  | ChannelState.openC ent =>
    match ent.channel.durationUnused with
    | some unused => decide (ent.maxUnusedDuration < unused)
    | none => false
  | _ => false

/-- Spec-side remaining time-to-expiry of an entry: defined for retained
Open entries with a known unused duration. -/
def specRemaining (st : ChannelState) : Option Nat :=
  match st with
  | ChannelState.openC ent =>
    match ent.channel.durationUnused with
    | some unused =>
      if unused ≤ ent.maxUnusedDuration then some (ent.maxUnusedDuration - unused) else none
    | none => none
  | _ => none

/-- `ready_to_expire` decomposed through the spec-side notions. -/
theorem ready_to_expire_eq (st : ChannelState) (acc : Nat) :
    ready_to_expire st acc =
      (specExpires st,
        match specRemaining st with
        | some r => min acc r
        | none => acc) := by
  cases st with
  | openC ent =>
    cases hd : ent.channel.durationUnused with
    | none => simp [ready_to_expire, specExpires, specRemaining, hd]
    | some unused =>
      by_cases hle : unused ≤ ent.maxUnusedDuration
      · simp [ready_to_expire, specExpires, specRemaining, hd, checkedSub, hle, Nat.not_lt.2 hle]
      · have hlt : ent.maxUnusedDuration < unused := Nat.not_le.1 hle
        simp [ready_to_expire, specExpires, specRemaining, hd, checkedSub, hle, hlt]
  | building => simp [ready_to_expire, specExpires, specRemaining]
  | poisoned => simp [ready_to_expire, specExpires, specRemaining]

/-- The expiry sweep, for any starting minimum: retained entries are the
non-expiring ones, and the result is the running minimum of the remaining
times. -/
theorem expireGo_spec (m : List (Nat × ChannelState)) (ret : Nat) :
    (expireGo m ret).1 = m.filter (fun e => !specExpires e.2) ∧
    (expireGo m ret).2 = m.foldl
      (fun acc e =>
        match specRemaining e.2 with
        | some r => min acc r
        | none => acc) ret := by
  induction m generalizing ret with
  | nil => exact ⟨rfl, rfl⟩
  | cons e rest ih =>
    have hr := ready_to_expire_eq e.2 ret
    have hcond : expireGo (e :: rest) ret =
        cond (ready_to_expire e.2 ret).1
          (expireGo rest (ready_to_expire e.2 ret).2)
          (e :: (expireGo rest (ready_to_expire e.2 ret).2).1,
            (expireGo rest (ready_to_expire e.2 ret).2).2) := rfl
    by_cases hex : specExpires e.2
    · have hb : (ready_to_expire e.2 ret).1 = true := by rw [hr]; exact hex
      have h1 : expireGo (e :: rest) ret =
          expireGo rest (ready_to_expire e.2 ret).2 := by
        rw [hcond, hb, Bool.cond_true]
      rw [h1]
      constructor
      · rw [(ih _).1, List.filter_cons]
        simp [hex]
      · rw [(ih _).2, List.foldl_cons, hr]
    · have hexb : specExpires e.2 = false := by simpa using hex
      have hb : (ready_to_expire e.2 ret).1 = false := by rw [hr]; exact hexb
      have h1 : expireGo (e :: rest) ret =
          (e :: (expireGo rest (ready_to_expire e.2 ret).2).1,
            (expireGo rest (ready_to_expire e.2 ret).2).2) := by
        rw [hcond, hb, Bool.cond_false]
      rw [h1]
      constructor
      · show e :: (expireGo rest (ready_to_expire e.2 ret).2).1 = _
        rw [(ih _).1, List.filter_cons]
        simp [hexb]
      · show (expireGo rest (ready_to_expire e.2 ret).2).2 = _
        rw [(ih _).2, List.foldl_cons, hr]

/-- A single Open entry whose transport has been unused for exactly its
maximum unused duration (5 = 5). -/
def c4CexMap : List (Nat × ChannelState) :=
  [(0, ChannelState.openC
      { channel := { ident := 0, durationUnused := some 5, updates := [], reparamOk := true },
        maxUnusedDuration := 5 })]

/-- **C4 counterexample.** An Open entry with `duration_unused = 5` equal to
`max_unused_duration = 5` — so `duration_unused ≥ max_unused_duration` — is
*retained* by `expire_channels` (which also returns the remaining time 0),
refuting the claim that exactly the entries with
`duration_unused ≥ max_unused_duration` are removed: the code removes an
entry only when `checked_sub` fails, i.e. when the inequality is strict. -/
theorem c4_boundary_retained_cex :
    expire_channels c4CexMap = (c4CexMap, 0) ∧ 5 ≥ 5 := by
  constructor
  · rfl
  · exact Nat.le_refl 5

/-- **C4 (amended).** `expire_channels` removes exactly the Open entries
whose transport reports a known `duration_unused` with
`duration_unused > max_unused_duration` (strictly), retains every Building
entry and every Open entry whose `duration_unused` is unknown, and returns
the minimum, over Open entries with a known `duration_unused ≤
max_unused_duration`, of the remaining time-to-expiry
`max_unused_duration - duration_unused`, capped at a default of 180
seconds. -/
theorem c4_expire_characterization (m : List (Nat × ChannelState)) :
    (expire_channels m).1 = m.filter (fun e => !specExpires e.2) ∧
    (expire_channels m).2 = m.foldl
      (fun acc e =>
        match specRemaining e.2 with
        | some r => min acc r
        | none => acc) 180 :=
  expireGo_spec m 180

end Arti

namespace Arti

/-! ### C6: padding parameter resolver -/

/-- Spec-side restatement of the (amended) padding resolver: `None` level
gives `all_zeroes`; with a consensus, the level's `nf_ito` low/high pair is
used provided `low ≤ high`, and otherwise the builder-default parameters
(the Normal-level default, for either level); without a consensus, the named
default for the level. -/
def specPaddingResolver (config : PaddingLevel) (netdir : Except Unit NetDirExtract) :
    PaddingParameters :=
  match config with
  | PaddingLevel.none => PaddingParameters.allZeroes
  | PaddingLevel.reduced =>
    match netdir with
    | Except.ok nd =>
      if (nd.nfIto true).1 ≤ (nd.nfIto true).2 then
        ⟨(nd.nfIto true).1, (nd.nfIto true).2⟩
      else PaddingParameters.defaultNormal
    | Except.error _ => PaddingParameters.defaultReduced
  | PaddingLevel.normal =>
    match netdir with
    | Except.ok nd =>
      if (nd.nfIto false).1 ≤ (nd.nfIto false).2 then
        ⟨(nd.nfIto false).1, (nd.nfIto false).2⟩
      else PaddingParameters.defaultNormal
    | Except.error _ => PaddingParameters.defaultNormal

/-- A consensus extract whose reduced-level pair has `low > high`. -/
def c6CexNetdir : NetDirExtract :=
  { nfItoNormal := (1, 2), nfItoReduced := (5, 3) }

/-- **C6 counterexample.** With level Reduced and an available consensus
whose reduced pair is `(5, 3)` (so `low > high`, a failed check), the
resolver returns the untouched builder's defaults — the Normal-level
default, not `default_reduced` — refuting the claim that a failed check
falls back to the named default *for that level*. -/
theorem c6_reduced_fallback_cex :
    padding_parameters PaddingLevel.reduced (Except.ok c6CexNetdir) =
      Except.ok PaddingParameters.defaultNormal ∧
    PaddingParameters.defaultNormal ≠ PaddingParameters.defaultReduced := by
  constructor
  · rfl
  · decide

/-- **C6 (amended).** The padding resolver returns `all_zeroes` for level
`None`; for `Reduced`/`Normal` with an available consensus it builds from
the level's `nf_ito` low/high pair provided `low ≤ high`, and otherwise (a
failed check) returns the builder-default parameters — the Normal-level
default, regardless of level; with no consensus it returns the named
default for the level (`default` for Normal, `default_reduced` for
Reduced).  It never signals an error. -/
theorem c6_padding_characterization (config : PaddingLevel)
    (netdir : Except Unit NetDirExtract) :
    padding_parameters config netdir = Except.ok (specPaddingResolver config netdir) := by
  cases config with
  | none => rfl
  | reduced =>
    cases netdir with
    | ok nd =>
      by_cases h : (nd.nfIto true).1 ≤ (nd.nfIto true).2 <;>
        simp [padding_parameters, padding_parameters.paddingParametersFor,
          specPaddingResolver, PaddingParametersBuilder.build, h]
    | error e => rfl
  | normal =>
    cases netdir with
    | ok nd =>
      by_cases h : (nd.nfIto false).1 ≤ (nd.nfIto false).2 <;>
        simp [padding_parameters, padding_parameters.paddingParametersFor,
          specPaddingResolver, PaddingParametersBuilder.build, h]
    | error e => rfl

end Arti

namespace Arti

/-! ### C5: reconfigure_general fan-out -/

/-- `ChannelsParams` restricted to what this code updates: the padding
parameters that all channels agree on. -/
structure ChannelsParams where
  padding : PaddingParameters
deriving DecidableEq

/-- Modelled from the spec: the `ChannelsParams` update builder.
`start_update().padding_parameters(p).finish()` returns `Some(update)` iff
the effective value changed, and `None` otherwise. -/
def paramsUpdateFinish (old new : PaddingParameters) : Option PaddingParameters :=
  if new = old then none else some new

/-- `ChannelConfig` restricted to the consumed field. -/
structure ChannelConfig where
  padding : PaddingLevel
deriving DecidableEq

/-- The state behind the channel map's mutex (`Inner`): the keyed table, the
current `ChannelsParams`, the configuration and the dormancy flag. -/
structure Inner where
  channels : List (Nat × ChannelState)
  channelsParams : ChannelsParams
  config : ChannelConfig
  dormancy : Bool
deriving DecidableEq

/-- `AbstractChannel::reparameterize`: the channel records the shared
update; a closed or gone channel fails. -/
def reparameterize (u : PaddingParameters) (c : Channel) : Except Unit Channel :=
  if c.reparamOk then Except.ok { c with updates := c.updates ++ [u] } else Except.error ()

/-- Body of the fan-out loop: `let _ = channel.reparameterize(update)` — the
result is ignored, so a failing channel is left as it was; Building and
Poisoned entries are skipped by `continue`. -/
def fanoutOne (u : PaddingParameters) (st : ChannelState) : ChannelState :=
  match st with
  | ChannelState.openC ent =>
    match reparameterize u ent.channel with
    | Except.ok c' => ChannelState.openC { ent with channel := c' }
    | Except.error _ => ChannelState.openC ent
  | _ => st

/-- Whether a state is an Open entry. -/
def isOpenState (st : ChannelState) : Bool :=
  match st with
  | ChannelState.openC _ => true
  | _ => false

/-- Identities of the Open entries, in map order: the channels on which the
fan-out loop invokes `reparameterize` (once each). -/
def reparamLog (channels : List (Nat × ChannelState)) : List Nat :=
  channels.filterMap (fun e =>
    match e.2 with
    | ChannelState.openC _ => some e.1
    | _ => none)

/-- The map state after only the config/dormancy overrides (the `finish()
= None` early return). -/
def innerAfterOverrides (inner : Inner) (newConfig : Option ChannelConfig)
    (newDormancy : Option Bool) : Inner :=
  { inner with
      config := newConfig.getD inner.config
      dormancy := newDormancy.getD inner.dormancy }

/-- The map state after the overrides, the params update and the fan-out of
update `u` computed from parameters `pp`. -/
def innerAfterFanout (inner : Inner) (newConfig : Option ChannelConfig)
    (newDormancy : Option Bool) (pp u : PaddingParameters) : Inner :=
  { inner with
      config := newConfig.getD inner.config
      dormancy := newDormancy.getD inner.dormancy
      channelsParams := ⟨pp⟩
      channels := inner.channels.map (fun e => (e.1, fanoutOne u e.2)) }

/-- `ChannelMap::reconfigure_general` (map.rs lines 326–388): apply the
config and dormancy overrides, compute the padding parameters from the
(possibly new) config and the netdir extract, and run a params update; when
`finish()` returns `None` return at once without touching any channel,
otherwise share the update and call `reparameterize` on every Open
transport, skipping Building/Poisoned entries and ignoring failures.
Alongside the new state the model returns the identities on which
`reparameterize` was invoked. -/
def reconfigure_general (inner : Inner) (newConfig : Option ChannelConfig)
    (newDormancy : Option Bool) (netdir : Except Unit NetDirExtract) :
    Except Unit (Inner × List Nat) :=
  match padding_parameters (newConfig.getD inner.config).padding netdir with
  | Except.error e => Except.error e
  | Except.ok pp =>
    match paramsUpdateFinish inner.channelsParams.padding pp with
    | none => Except.ok (innerAfterOverrides inner newConfig newDormancy, [])
    | some u =>
      Except.ok (innerAfterFanout inner newConfig newDormancy pp u,
        reparamLog inner.channels)

/-- The fan-out log mentions each identity as often as the map holds an Open
entry under that identity — in particular exactly once per Open entry and
never for a Building entry. -/
theorem reparamLog_count (l : List (Nat × ChannelState)) (i : Nat) :
    (reparamLog l).count i =
      l.countP (fun e => decide (e.1 = i) && isOpenState e.2) := by
  induction l with
  | nil => rfl
  | cons e rest ih =>
    cases h2 : e.2 with
    | openC ent =>
      have hl : reparamLog (e :: rest) = e.1 :: reparamLog rest := by
        simp [reparamLog, h2]
      rw [hl, List.count_cons, List.countP_cons, ih]
      by_cases hi : e.1 = i
      · simp [hi, h2, isOpenState]
      · have : ¬ (i = e.1) := fun h => hi h.symm
        simp [hi, this, h2, isOpenState]
    | building =>
      have hl : reparamLog (e :: rest) = reparamLog rest := by
        simp [reparamLog, h2]
      rw [hl, List.countP_cons, ih]
      simp [h2, isOpenState]
    | poisoned =>
      have hl : reparamLog (e :: rest) = reparamLog rest := by
        simp [reparamLog, h2]
      rw [hl, List.countP_cons, ih]
      simp [h2, isOpenState]

/-- **C5.** `reconfigure_general`: when the computed padding parameters
produce no effective change (the update's `finish()` returns `None`), no
channel's `reparameterize` is called and the channels are untouched; when
they do produce a change `u`, `reparameterize(u)` is called exactly once on
the transport of every Open entry and never on a Building entry (the call
log counts each identity exactly as often as it has an Open entry), with
failures ignored (the result is still a success and a failing transport is
simply left unchanged). -/
theorem c5_reconfigure_fanout (inner : Inner) (newConfig : Option ChannelConfig)
    (newDormancy : Option Bool) (netdir : Except Unit NetDirExtract)
    (pp : PaddingParameters)
    (hpp : padding_parameters (newConfig.getD inner.config).padding netdir =
      Except.ok pp) :
    (paramsUpdateFinish inner.channelsParams.padding pp = none →
      reconfigure_general inner newConfig newDormancy netdir =
        Except.ok (innerAfterOverrides inner newConfig newDormancy, []) ∧
      (innerAfterOverrides inner newConfig newDormancy).channels = inner.channels) ∧
    (∀ u, paramsUpdateFinish inner.channelsParams.padding pp = some u →
      reconfigure_general inner newConfig newDormancy netdir =
        Except.ok (innerAfterFanout inner newConfig newDormancy pp u,
          reparamLog inner.channels) ∧
      (∀ i, (reparamLog inner.channels).count i =
        inner.channels.countP (fun e => decide (e.1 = i) && isOpenState e.2))) := by
  constructor
  · intro hnone
    constructor
    · unfold reconfigure_general
      rw [hpp]
      show (match paramsUpdateFinish inner.channelsParams.padding pp with
        | none => Except.ok (innerAfterOverrides inner newConfig newDormancy, ([] : List Nat))
        | some u => Except.ok (innerAfterFanout inner newConfig newDormancy pp u,
            reparamLog inner.channels)) = _
      rw [hnone]
    · rfl
  · intro u hsome
    constructor
    · unfold reconfigure_general
      rw [hpp]
      show (match paramsUpdateFinish inner.channelsParams.padding pp with
        | none => Except.ok (innerAfterOverrides inner newConfig newDormancy, ([] : List Nat))
        | some u => Except.ok (innerAfterFanout inner newConfig newDormancy pp u,
            reparamLog inner.channels)) = _
      rw [hsome]
    · intro i
      exact reparamLog_count inner.channels i

/-- Channels for the C5 witness: an Open entry under identity 1 (which will
accept the update), a Building entry under identity 2, and an Open entry
under identity 3 whose `reparameterize` fails (and is ignored). -/
def c5Channels : List (Nat × ChannelState) :=
  [(1, ChannelState.openC
      { channel := { ident := 1, durationUnused := none, updates := [], reparamOk := true },
        maxUnusedDuration := 180 }),
   (2, ChannelState.building),
   (3, ChannelState.openC
      { channel := { ident := 3, durationUnused := none, updates := [], reparamOk := false },
        maxUnusedDuration := 180 })]

/-- Map state for the C5 witness: padding level Normal, no consensus, and
current parameters that differ from the Normal default. -/
def c5Inner : Inner :=
  { channels := c5Channels,
    channelsParams := ⟨⟨1234, 9500⟩⟩,
    config := ⟨PaddingLevel.normal⟩,
    dormancy := false }

/-- Witness for C5: on `c5Inner` with no consensus the resolver yields the
Normal default, which differs from the current parameters, so the update
fires: the call log counts each Open identity once and the Building
identity never. -/
theorem c5_reconfigure_witness :
    reconfigure_general c5Inner none none (Except.error ()) =
      Except.ok (innerAfterFanout c5Inner none none PaddingParameters.defaultNormal
          PaddingParameters.defaultNormal,
        reparamLog c5Channels) ∧
    (∀ i, (reparamLog c5Channels).count i =
      c5Channels.countP (fun e => decide (e.1 = i) && isOpenState e.2)) := by
  have h := c5_reconfigure_fanout c5Inner none none (Except.error ())
    PaddingParameters.defaultNormal (by rfl)
  have h2 := h.2 PaddingParameters.defaultNormal (by decide)
  exact ⟨h2.1, h2.2⟩

end Arti

namespace Arti

/-! ### C9: change_state on a vacant entry with a mismatched identity -/

/-- `ChannelState::check_ident` (map.rs lines 149–163): an Open state whose
transport identity differs from `ident` is an internal error (modelled as
`Except.error ()`), a Poisoned state is an internal error, and a Building
state always passes. -/
def check_ident (st : ChannelState) (ident : Nat) : Except Unit Unit :=
  match st with
  | ChannelState.openC ent =>
    if ent.channel.ident = ident then Except.ok () else Except.error ()
  | ChannelState.poisoned => Except.error ()
  | ChannelState.building => Except.ok ()

/-- Lookup in the association-list model of the `HashMap`. -/
def mapLookup (m : List (Nat × ChannelState)) (i : Nat) : Option ChannelState :=
  match m with
  | [] => none
  | e :: rest => if e.1 = i then some e.2 else mapLookup rest i

/-- Replace the value stored under an occupied key. -/
def mapUpdate (m : List (Nat × ChannelState)) (i : Nat) (st : ChannelState) :
    List (Nat × ChannelState) :=
  match m with
  | [] => []
  | e :: rest => if e.1 = i then (i, st) :: rest else e :: mapUpdate rest i st

/-- Remove an occupied key. -/
def mapRemove (m : List (Nat × ChannelState)) (i : Nat) : List (Nat × ChannelState) :=
  match m with
  | [] => []
  | e :: rest => if e.1 = i then rest else e :: mapRemove rest i

/-- Insert into a vacant key. -/
def mapInsert (m : List (Nat × ChannelState)) (i : Nat) (st : ChannelState) :
    List (Nat × ChannelState) :=
  m ++ [(i, st)]

/-- `ChannelMap::change_state` (map.rs lines 281–315): on an occupied entry,
swap in a Poisoned placeholder, run `func` on the old state, validate the
returned identity (a failure leaves the entry Poisoned), and swap back or
remove; on a vacant entry, run `func(None)` and, only after the identity
check passes, insert the new state.  Returns the function's output (or the
internal error) together with the resulting map. -/
def change_state {V : Type} (m : List (Nat × ChannelState)) (ident : Nat)
    (f : Option ChannelState → Option ChannelState × V) :
    Except Unit V × List (Nat × ChannelState) :=
  match mapLookup m ident with
  | some old =>
    let m1 := mapUpdate m ident ChannelState.poisoned
    let r := f (some old)
    match r.1 with
    | some newent =>
      match check_ident newent ident with
      | Except.ok _ => (Except.ok r.2, mapUpdate m1 ident newent)
      | Except.error e => (Except.error e, m1)
    | none => (Except.ok r.2, mapRemove m1 ident)
  | none =>
    let r := f none
    match r.1 with
    | some newent =>
      match check_ident newent ident with
      | Except.ok _ => (Except.ok r.2, mapInsert m ident newent)
      | Except.error e => (Except.error e, m)
    | none => (Except.ok r.2, m)

/-- `ChannelMap::get` (map.rs lines 206–213): looking up a Poisoned state
fails (its `clone_ref` is an internal error); otherwise the state, if any,
is returned. -/
def mapGet (m : List (Nat × ChannelState)) (i : Nat) :
    Except Unit (Option ChannelState) :=
  match mapLookup m i with
  | none => Except.ok none
  | some ChannelState.poisoned => Except.error ()
  | some st => Except.ok (some st)

/-- **C9.** If `ident` has no entry in the map and `change_state(ident, f)`
is called with `f(None)` returning an Open state whose transport identity
does not match `ident`, then `change_state` returns an internal error and
the map is unchanged: no entry (in particular no Poisoned entry) exists for
`ident` afterwards, and a subsequent `get(ident)` succeeds with `None`. -/
theorem c9_change_state_vacant_mismatch {V : Type}
    (m : List (Nat × ChannelState)) (ident : Nat)
    (f : Option ChannelState → Option ChannelState × V)
    (ent : OpenEntry) (v : V)
    (hvac : mapLookup m ident = none)
    (hf : f none = (some (ChannelState.openC ent), v))
    (hmis : ent.channel.ident ≠ ident) :
    (change_state m ident f).1 = Except.error () ∧
    (change_state m ident f).2 = m ∧
    mapGet (change_state m ident f).2 ident = Except.ok none := by
  have hchk : check_ident (ChannelState.openC ent) ident = Except.error () := by
    simp [check_ident, hmis]
  have hcs : change_state m ident f = (Except.error (), m) := by
    unfold change_state
    rw [hvac, hf]
    show (match check_ident (ChannelState.openC ent) ident with
      | Except.ok _ => (Except.ok v, mapInsert m ident (ChannelState.openC ent))
      | Except.error e => ((Except.error e : Except Unit V), m)) = _
    rw [hchk]
  refine ⟨by rw [hcs], by rw [hcs], ?_⟩
  rw [hcs]
  show mapGet m ident = Except.ok none
  unfold mapGet
  rw [hvac]

/-- Witness for C9: the empty map under identity 5, with `f` returning an
Open entry whose transport identity is 0. -/
theorem c9_change_state_witness :
    (change_state []
        5
        (fun _ => (some (ChannelState.openC
          { channel := { ident := 0, durationUnused := none, updates := [], reparamOk := true },
            maxUnusedDuration := 180 }), 42))).1 = (Except.error () : Except Unit Nat) ∧
    (change_state ([] : List (Nat × ChannelState))
        5
        (fun _ => (some (ChannelState.openC
          { channel := { ident := 0, durationUnused := none, updates := [], reparamOk := true },
            maxUnusedDuration := 180 }), (42 : Nat)))).2 = [] := by
  have h := c9_change_state_vacant_mismatch (V := Nat) [] 5
    (fun _ => (some (ChannelState.openC
      { channel := { ident := 0, durationUnused := none, updates := [], reparamOk := true },
        maxUnusedDuration := 180 }), 42))
    { channel := { ident := 0, durationUnused := none, updates := [], reparamOk := true },
      maxUnusedDuration := 180 }
    42 rfl rfl (by decide)
  exact ⟨h.1, h.2.1⟩

end Arti

namespace Arti

/-! ## Microdescriptor ed25519 identity (tor-netdoc/src/microdesc.rs) -/

/-- Modelled from the spec: a tokenized item of a line-oriented directory
document — a keyword followed by its arguments (the document grammar is
`id <type> <value>`, so `get_arg(n)` returns the `n`-th argument after the
keyword, 0-based). -/
structure MdItem where
  kwd : String
  args : List String
deriving DecidableEq

/-- Modelled from the spec: `Item::get_arg(n)`, the `n`-th argument after
the keyword (0-based). -/
def getArg (it : MdItem) (n : Nat) : Option String :=
  it.args.get? n

/-- Modelled from the spec: `Item::parse_arg::<T>(n)` decodes the `n`-th
argument; decoding itself (base64 + key parsing) is abstracted to returning
the raw argument string, and a missing argument is a parse error. -/
def parseArg (it : MdItem) (n : Nat) : Except Unit String :=
  match getArg it n with
  | some a => Except.ok a
  | none => Except.error ()

/-- The `ed25519 identity` block of `Microdesc::parse_from_reader`
(microdesc.rs lines 183–192): among the `id` items, find one whose
*second* argument (`get_arg(1)`) equals `"ed25519"`, and decode its *first*
argument (`parse_arg(0)`) as the key. -/
def ed25519IdOf (ids : List MdItem) : Except Unit (Option String) :=
  match ids.find? (fun it => getArg it 1 == some "ed25519") with
  | none => Except.ok none
  | some tok =>
    match parseArg tok 0 with
    | Except.ok k => Except.ok (some k)
    | Except.error e => Except.error e

/-- **C7 (code bug).** For a microdescriptor containing the documented line
form `id ed25519 <base64>` — keyword `id`, first argument the type
`ed25519`, second argument the base64 value — the code produces *no*
ed25519 identity (`None`), because it tests the *second* argument against
`"ed25519"` and would decode the *first*: the argument indices are swapped
relative to the documented `id <type> <value>` grammar.  A line with the
arguments reversed (`id <base64> ed25519`) is the one the code accepts,
decoding the base64 from the first position. -/
theorem c7_id_arguments_swapped :
    ed25519IdOf [{ kwd := "id", args := ["ed25519", "dGVzdEtleUJhc2U2NA"] }] =
      Except.ok none ∧
    ed25519IdOf [{ kwd := "id", args := ["dGVzdEtleUJhc2U2NA", "ed25519"] }] =
      Except.ok (some "dGVzdEtleUJhc2U2NA") := by
  constructor
  · rfl
  · rfl

end Arti

namespace Arti

/-! ## HTTP connector URI resolution (crates/arti-hyper/src/lib.rs) -/

/-- The URI schemes the connector distinguishes (`hyper`'s `Scheme`). -/
inductive UriScheme where
  | http
  | https
  | other
deriving DecidableEq

/-- The parts of a `Uri` that `uri_to_host_port_tls` consumes: its scheme,
host and explicit port, each possibly absent. -/
structure Uri where
  scheme : Option UriScheme
  host : Option String
  port : Option Nat
deriving DecidableEq

/-- Whether the connection is wrapped in TLS (`UseTls`). -/
inductive UseTls where
  | bare
  | tls
deriving DecidableEq

/-- `ConnectionError` restricted to the two URI failures. -/
inductive ConnectionError where
  | unsupportedUriScheme (uri : Uri)
  | missingHostname (uri : Uri)
deriving DecidableEq

/-- `uri_to_host_port_tls` (arti-hyper lines 202–224): require an http or
https scheme (else `UnsupportedUriScheme`), then a host (else
`MissingHostname`); the port is the explicit one, defaulting to 443 under
TLS and 80 otherwise. -/
def uri_to_host_port_tls (uri : Uri) : Except ConnectionError (String × Nat × UseTls) :=
  match
    (if uri.scheme = some UriScheme.http then Except.ok UseTls.bare
     else if uri.scheme = some UriScheme.https then Except.ok UseTls.tls
     else Except.error (ConnectionError.unsupportedUriScheme uri)) with
  | Except.error e => Except.error e
  | Except.ok useTls =>
    match uri.host with
    | none => Except.error (ConnectionError.missingHostname uri)
    | some h =>
      let port := uri.port.getD (match useTls with
        | UseTls.tls => 443
        | UseTls.bare => 80)
      Except.ok (h, port, useTls)

/-- Spec-side restatement of C8: a scheme that is neither http nor https
fails with `UnsupportedUriScheme`; otherwise a missing host fails with
`MissingHostname`; otherwise the target port is the explicit port if
present, else 80 for http and 443 for https, and TLS is selected exactly
when the scheme is https. -/
def specUriResult (uri : Uri) : Except ConnectionError (String × Nat × UseTls) :=
  if uri.scheme ≠ some UriScheme.http ∧ uri.scheme ≠ some UriScheme.https then
    Except.error (ConnectionError.unsupportedUriScheme uri)
  else
    match uri.host with
    | none => Except.error (ConnectionError.missingHostname uri)
    | some h =>
      Except.ok (h,
        uri.port.getD (if uri.scheme = some UriScheme.https then 443 else 80),
        if uri.scheme = some UriScheme.https then UseTls.tls else UseTls.bare)

/-- **C8.** For every URI given to the HTTP connector: a scheme that is
neither http nor https fails with `UnsupportedUriScheme`; otherwise a
missing host fails with `MissingHostname`; otherwise the connection target
port is the explicit port if present, else 80 for http and 443 for https,
and TLS wrapping is selected exactly when the scheme is https. -/
theorem c8_uri_characterization (uri : Uri) :
    uri_to_host_port_tls uri = specUriResult uri := by
  rcases uri with ⟨scheme, host, port⟩
  rcases scheme with _ | sc
  · cases host <;> simp [uri_to_host_port_tls, specUriResult]
  · cases sc <;> cases host <;>
      simp [uri_to_host_port_tls, specUriResult]

end Arti

namespace Arti

/-! ## Receive window (tor-proto/src/circuit/sendme.rs) -/

/-- `RecvWindow<P>`: a bare counter. -/
structure RecvWindow where
  window : Nat
deriving DecidableEq

/-- `RecvWindow::take` (sendme.rs lines 220–231): `checked_sub(1)`; on
success store the new value and report whether a SENDME is due (the same
boundary rule as the send side, tested on the old value); on underflow
return `None` (the peer overran the window). -/
def recvTake (P : WindowParams) (s : RecvWindow) : Option Bool × RecvWindow :=
  match s.window with
  | 0 => (none, s)
  | Nat.succ w =>
    (some (decide (s.window % P.inc = 0 ∧ s.window ≠ P.max)), { window := w })

/-- `RecvWindow::put` (sendme.rs lines 234–236): add the increment (the
`unwrap` on overflow is a host-side invariant violation, not modelled: the
model works in `Nat`). -/
def recvPut (P : WindowParams) (s : RecvWindow) : RecvWindow :=
  { window := s.window + P.inc }

/-- **C10.** Whenever `RecvWindow::take()` returns `None` (the window was
0), the window value is left unchanged, so a later `put()` followed by
`take()` behaves exactly as if the failed call had never happened. -/
theorem c10_recv_take_none_unchanged (P : WindowParams) (s : RecvWindow)
    (h : (recvTake P s).1 = none) :
    (recvTake P s).2 = s ∧
    s.window = 0 ∧
    recvTake P (recvPut P (recvTake P s).2) = recvTake P (recvPut P s) := by
  have hw : s.window = 0 := by
    cases hw : s.window with
    | zero => rfl
    | succ w =>
      rw [recvTake] at h
      simp [hw] at h
  refine ⟨?_, hw, ?_⟩
  · rw [recvTake]
    simp [hw]
  · have : (recvTake P s).2 = s := by
      rw [recvTake]
      simp [hw]
    rw [this]

/-- Witness for C10: a circuit receive window at 0; `take` fails and leaves
the window at 0, and `put`-then-`take` agrees with the run without the
failed call. -/
theorem c10_recv_take_witness :
    (recvTake circParams ⟨0⟩).2 = ⟨0⟩ ∧
    (0 : Nat) = 0 ∧
    recvTake circParams (recvPut circParams (recvTake circParams ⟨0⟩).2) =
      recvTake circParams (recvPut circParams ⟨0⟩) := by
  have h := c10_recv_take_none_unchanged circParams ⟨0⟩ (by decide)
  exact ⟨h.1, rfl, h.2.2⟩

end Arti
